import Mathlib

/-!
Verification of the morphos-fitness backend websocket core.

This file shallowly embeds the stateful Python code of
`services/backend-service/src/api/websocket.py` (RepCounter, the CORS gate,
the inference-service call wrapper and the frame-processing step of the
websocket loop) and of `services/backend-service/src/core/managers.py`
(ConnectionManager), and proves properties of the embedding.

Conventions of the embedding:
- Python floats become rationals; `time.time()` becomes an explicit
  rational argument threaded into each stateful operation.
- Python dict payloads become association lists over an inductive value
  type, with dict assignment modelled as in-place key replacement.
- Exceptions raised by the transport are modelled by an explicit outcome
  parameter (which sends succeed) or an outcome constructor.
-/

namespace Morphos

/-- A keypoint observation as delivered by the inference service: a dict
that may carry a vertical position and a confidence. The source reads both
with `.get(key, 0)`, so absent fields default to `0`. -/
structure Keypoint where
  y : Option ℚ
  confidence : Option ℚ
deriving DecidableEq, Repr

/-- `keypoints[idx].get("y", 0)` of the source. -/
def Keypoint.getY (kp : Keypoint) : ℚ := kp.y.getD 0

/-- `keypoints[idx].get("confidence", 0)` of the source. -/
def Keypoint.getConfidence (kp : Keypoint) : ℚ := kp.confidence.getD 0

/-- `self.max_positions = 10` of `RepCounter.__init__`. -/
def max_positions : ℕ := 10

/-- The buffer update of `RepCounter.update`:
`self.positions.append(current_y)` followed by
`if len(self.positions) > self.max_positions: self.positions.pop(0)`.
`pop(0)` removes the oldest element, which is `List.tail` on the appended
buffer: strict FIFO eviction. -/
def nextPositions (positions : List ℚ) (y : ℚ) : List ℚ :=
  if max_positions < (positions ++ [y]).length then (positions ++ [y]).tail
  else positions ++ [y]

/-- Python `max(xs)` on a nonempty list (the source only calls it with at
least 3 buffered positions; the empty case is unreachable there). -/
def listMax : List ℚ → ℚ
  | [] => 0
  | x :: xs => xs.foldl max x

/-- Python `min(xs)` on a nonempty list. -/
def listMin : List ℚ → ℚ
  | [] => 0
  | x :: xs => xs.foldl min x

/-- `avg_prev = sum(self.positions[:-1]) / (len(self.positions) - 1)`:
the mean of the buffer without its newest element. -/
def avgPrev (positions : List ℚ) : ℚ :=
  positions.dropLast.sum / ((positions.length : ℚ) - 1)

/-- The mutable state of a `RepCounter` instance, as set up by
`RepCounter.__init__(keypoint_idx=9)`. -/
structure RepCounterState where
  keypoint_idx : ℕ
  positions : List ℚ
  going_up : Option Bool
  rep_count : ℕ
  last_rep_time : ℚ
deriving DecidableEq, Repr

/-- `RepCounter()` with the default tracked keypoint index 9. -/
def RepCounterState.init : RepCounterState :=
  { keypoint_idx := 9, positions := [], going_up := none, rep_count := 0,
    last_rep_time := 0 }

/-- `self.going_up is not None and self.going_up != direction_up` of the
source: a previous direction was established and differs from the newly
computed one. -/
def changedFlag (going_up : Option Bool) (direction_up : Bool) : Bool :=
  match going_up with
  | none => false
  | some g => g != direction_up

/-- `RepCounter.update(keypoints)` of the source, with `time.time()` made
an explicit argument `now`. Returns the updated state; the Python return
value is the `rep_count` field of that state.

The guard `if not keypoints or len(keypoints) <= self.keypoint_idx` is
exactly `keypoints.get? keypoint_idx = none` (an empty list has length
`0 ≤ keypoint_idx`). The rep branch requires, in the source's nesting
order: an established previous direction that differs from the new one,
`current_time - self.last_rep_time > 0.5`, and
`abs(max(positions) - min(positions)) > 0.15`; the direction flag is
assigned the newly computed direction on every path past the length-3
guard. -/
def RepCounterState.update (s : RepCounterState) (keypoints : List Keypoint)
    (now : ℚ) : RepCounterState :=
  match keypoints.get? s.keypoint_idx with
  | none => s
  | some kp =>
    if kp.getConfidence < 1/2 then s
    else
      let positions := nextPositions s.positions kp.getY
      if positions.length < 3 then { s with positions := positions }
      else
        let direction_up : Bool := decide (kp.getY < avgPrev positions)
        if changedFlag s.going_up direction_up
            && decide (1/2 < now - s.last_rep_time)
            && decide (3/20 < |listMax positions - listMin positions|) then
          { s with positions := positions, going_up := some direction_up,
                   rep_count := s.rep_count + 1, last_rep_time := now }
        else
          { s with positions := positions, going_up := some direction_up }

/-- Repeated calls to `RepCounter.update`, one `(keypoints, time)` pair per
call, in order. -/
def runUpdates (s : RepCounterState) : List (List Keypoint × ℚ) → RepCounterState
  | [] => s
  | (kps, t) :: rest => runUpdates (s.update kps t) rest

/-- The times at which `RepCounter.update` increments `rep_count` along a
sequence of calls. -/
def repTimes (s : RepCounterState) : List (List Keypoint × ℚ) → List ℚ
  | [] => []
  | (kps, t) :: rest =>
    let s' := s.update kps t
    if s.rep_count < s'.rep_count then t :: repTimes s' rest
    else repTimes s' rest

/-- A synthetic observation for `RepCounter(keypoint_idx=0)`: one keypoint
at vertical position `y` with confidence 1. -/
def oscSample (y : ℚ) : List Keypoint := [⟨some y, some 1⟩]

/-- `RepCounter(keypoint_idx=0)`, tracking the single synthetic keypoint. -/
def oscCounter : RepCounterState :=
  { keypoint_idx := 0, positions := [], going_up := none, rep_count := 0,
    last_rep_time := 0 }

/-- Two full periods of a synthetic triangle oscillation between `1/2` and
`1/5` (peak-to-trough amplitude `3/10`), sampled every `1/4` s with period
2 s (greater than 1 s), every sample at confidence 1. The 17 samples cover
times 0 through 4 s: exactly two full oscillations. -/
def oscInputs17 : List (List Keypoint × ℚ) :=
  [(oscSample (1/2), 0), (oscSample (17/40), 1/4), (oscSample (7/20), 1/2),
   (oscSample (11/40), 3/4), (oscSample (1/5), 1), (oscSample (11/40), 5/4),
   (oscSample (7/20), 3/2), (oscSample (17/40), 7/4), (oscSample (1/2), 2),
   (oscSample (17/40), 9/4), (oscSample (7/20), 5/2), (oscSample (11/40), 11/4),
   (oscSample (1/5), 3), (oscSample (11/40), 13/4), (oscSample (7/20), 7/2),
   (oscSample (17/40), 15/4), (oscSample (1/2), 4)]

/-- Three full periods of the same synthetic oscillation: the 25 samples
cover times 0 through 6 s. -/
def oscInputs25 : List (List Keypoint × ℚ) :=
  oscInputs17 ++
  [(oscSample (17/40), 17/4), (oscSample (7/20), 9/2), (oscSample (11/40), 19/4),
   (oscSample (1/5), 5), (oscSample (11/40), 21/4), (oscSample (7/20), 11/2),
   (oscSample (17/40), 23/4), (oscSample (1/2), 6)]

/-!
## ConnectionManager (`core/managers.py`)

`active_connections: Dict[str, WebSocket]` is modelled as the list of
registered client ids in insertion order (the connection handles carry no
data the claims need); `last_activity: Dict[str, float]` as an association
list in insertion order. Whether `websocket.send_json` raises for a given
client (a stale connection) is modelled by a `sendOk` predicate.
-/

/-- The state of a `ConnectionManager` instance. -/
structure ConnectionManagerState where
  active_connections : List String
  last_activity : List (String × ℚ)
deriving DecidableEq, Repr

/-- Python dict assignment `d[c] = t`: replace the value at an existing
key in place, else append a fresh entry. -/
def setActivity : List (String × ℚ) → String → ℚ → List (String × ℚ)
  | [], c, t => [(c, t)]
  | (k, v) :: rest, c, t =>
    if k = c then (c, t) :: rest else (k, v) :: setActivity rest c t

/-- Python dict lookup `d.get(c)`. -/
def getActivity : List (String × ℚ) → String → Option ℚ
  | [], _ => none
  | (k, v) :: rest, c => if k = c then some v else getActivity rest c

/-- `ConnectionManager.send_message(client_id, message)`: if the client is
registered, send (assumed to succeed here) and then record
`last_activity[client_id] = time.time()`; otherwise do nothing. -/
def send_message (s : ConnectionManagerState) (client : String) (now : ℚ) :
    ConnectionManagerState :=
  if client ∈ s.active_connections then
    { s with last_activity := setActivity s.last_activity client now }
  else s

/-- The loop body of `ConnectionManager.broadcast`: iterate the registered
connections in order; for each, `await websocket.send_json(message)` and
then update `last_activity`. The source wraps none of this in
`try`/`except`, so the first send that raises (modelled by
`sendOk c = false`) aborts the iteration: the result is the
`last_activity` map as updated so far, the list of clients actually sent
to, and the client whose send raised (if any). -/
def broadcastAux (sendOk : String → Bool) (now : ℚ) :
    List String → List (String × ℚ) →
    List (String × ℚ) × List String × Option String
  | [], la => (la, [], none)
  | c :: rest, la =>
    if sendOk c then
      let r := broadcastAux sendOk now rest (setActivity la c now)
      (r.1, c :: r.2.1, r.2.2)
    else (la, [], some c)

/-- `ConnectionManager.broadcast(message)`: returns the state after the
loop, the clients the message was delivered to, and the client at which an
exception aborted the loop (if any). -/
def broadcast (s : ConnectionManagerState) (sendOk : String → Bool) (now : ℚ) :
    ConnectionManagerState × List String × Option String :=
  let r := broadcastAux sendOk now s.active_connections s.last_activity
  ({ s with last_activity := r.1 }, r.2.1, r.2.2)

/-- One iteration of the `ConnectionManager.heartbeat` loop body after the
sleep, at time `now`: `if client_id in self.active_connections:
await ...send_json({"type": "heartbeat"})`. The flag records whether a
heartbeat message was sent. The source's heartbeat never writes
`last_activity` (nor any other field), so the state is returned as is. -/
def heartbeatTick (s : ConnectionManagerState) (client : String) (now : ℚ) :
    ConnectionManagerState × Bool :=
  if client ∈ s.active_connections then (s, true) else (s, false)

/-!
## Inference call wrapper and the frame branch of `websocket_endpoint`

JSON payloads exchanged with the inference service are modelled as
association lists over the value shapes the handler reads: strings,
integers, and keypoint arrays.
-/

/-- A JSON value as read by the frame handler. -/
inductive JVal where
  | str : String → JVal
  | int : ℤ → JVal
  | kps : List Keypoint → JVal
deriving DecidableEq, Repr

/-- A JSON object, in insertion order. -/
abbrev Payload := List (String × JVal)

/-- Python dict membership/lookup `d.get(k)` / `k in d`. -/
def lookupKey : Payload → String → Option JVal
  | [], _ => none
  | (k', v) :: rest, k => if k' = k then some v else lookupKey rest k

/-- Python dict assignment `d[k] = v`: replace in place or append. -/
def setKey : Payload → String → JVal → Payload
  | [], k, v => [(k, v)]
  | (k', v') :: rest, k, v =>
    if k' = k then (k, v) :: rest else (k', v') :: setKey rest k v

/-- The outcome of the HTTP POST inside `call_inference_service`: a
response with a status and JSON body, a timeout (`asyncio.TimeoutError`),
or any other transport-level exception with its message. -/
inductive HttpOutcome where
  | response : ℕ → Payload → HttpOutcome
  | timeout : HttpOutcome
  | failure : String → HttpOutcome

/-- `call_inference_service(frame_data)` of the source, as a function of
the HTTP outcome. Every arm returns a payload: the `try`/`except` around
the call converts the timeout and every other exception into an
`{"error": ...}` dict, and a response with `status != 200` likewise
becomes an `{"error": ...}` dict carrying the status; nothing is raised
to the caller. -/
def call_inference_service : HttpOutcome → Payload
  | HttpOutcome.response status body =>
    if status = 200 then body
    else [("error", JVal.str ("Inference service error: " ++ toString status))]
  | HttpOutcome.timeout => [("error", JVal.str "Inference service timeout")]
  | HttpOutcome.failure msg =>
    [("error", JVal.str ("Error calling inference service: " ++ msg))]

/-- `analyze_form(keypoints, exercise_type)` of the source: `"unknown"`
when `not keypoints or len(keypoints) < 10`, else `"good"`
(`exercise_type` is accepted and unused, as in the source). -/
def analyze_form (keypoints : List Keypoint) (exercise_type : String) : String :=
  if keypoints.isEmpty ∨ keypoints.length < 10 then "unknown" else "good"

/-- The per-frame tail of the `websocket_endpoint` loop (source lines
262–281), applied to the inference result: if `"error" in
analysis_results`, the dict is sent back verbatim and nothing is updated;
otherwise, if a `"keypoints"` entry is present, the rep counter is
updated with it and `analysis_results["rep_count"]` is set, and if the
keypoint list is non-empty `analysis_results["form_quality"]` is also
set; the (possibly) enriched dict is sent back. Returns the sent payload
and the rep-counter state after the call. The wildcard arm covers a
payload with no `"keypoints"` key (a `"keypoints"` entry that is not an
array does not occur in the inference service's response shape). -/
def processFrame (rc : RepCounterState) (exercise_type : String)
    (analysis_results : Payload) (now : ℚ) : Payload × RepCounterState :=
  if (lookupKey analysis_results "error").isSome then (analysis_results, rc)
  else
    match lookupKey analysis_results "keypoints" with
    | some (JVal.kps keypoints) =>
      let rc' := rc.update keypoints now
      let results1 := setKey analysis_results "rep_count" (JVal.int rc'.rep_count)
      if keypoints.isEmpty then (results1, rc')
      else
        (setKey results1 "form_quality"
          (JVal.str (analyze_form keypoints exercise_type)), rc')
    | _ => (analysis_results, rc)

/-- `cors_validation(websocket)` of the source, as a function of the
debug flag, the presented `Origin` header and the configured
`CORS_ORIGINS` list. In `if origin and (origin in settings.CORS_ORIGINS
or "*" in settings.CORS_ORIGINS)`, Python truthiness makes an empty
origin string fall through to the final `return False`. -/
def cors_validation (debug : Bool) (origin : Option String)
    (cors_origins : List String) : Bool :=
  if debug then true
  else
    match origin with
    | none => false
    | some o => (o != "") && (cors_origins.contains o || cors_origins.contains "*")

/-!
## Concrete inputs used by counterexamples and witnesses
-/

/-- A registry with two registered clients. -/
def bcState : ConnectionManagerState :=
  { active_connections := ["alice", "bob"],
    last_activity := [("alice", 0), ("bob", 0)] }

/-- A send effect in which the connection of `"alice"` has gone stale:
`send_json` raises for `"alice"` and succeeds for everyone else. -/
def bcSendOk : String → Bool := fun c => c != "alice"

/-- A registry with one registered client whose last activity is at 0. -/
def hbState : ConnectionManagerState :=
  { active_connections := ["alice"], last_activity := [("alice", 0)] }

/-- Ten identical high-confidence keypoints (enough for `analyze_form`). -/
def kp10 : List Keypoint := List.replicate 10 ⟨some (1/2), some 1⟩

/-- A successful inference payload carrying a keypoints array. -/
def frameResults : Payload := [("keypoints", JVal.kps kp10)]

/-- A successful inference payload with no `"keypoints"` entry. -/
def bareResults : Payload := [("pose", JVal.str "standing")]

/-!
## Helper lemmas
-/

lemma timeout_msg_ne_status_msg (st : String) :
    "Inference service timeout" ≠ "Inference service error: " ++ st := by
  intro h
  have hd := congrArg String.data h
  rw [String.data_append] at hd
  have ht := congrArg (List.take 19) hd
  rw [List.take_append_of_le_length (by decide)] at ht
  exact absurd ht (by decide)

lemma timeout_msg_ne_failure_msg (m : String) :
    "Inference service timeout" ≠ "Error calling inference service: " ++ m := by
  intro h
  have hd := congrArg String.data h
  rw [String.data_append] at hd
  have ht := congrArg (List.take 1) hd
  rw [List.take_append_of_le_length (by decide)] at ht
  exact absurd ht (by decide)

lemma getActivity_setActivity_self (la : List (String × ℚ)) (c : String) (t : ℚ) :
    getActivity (setActivity la c t) c = some t := by
  induction la with
  | nil => simp [setActivity, getActivity]
  | cons kv rest ih =>
    obtain ⟨k, v⟩ := kv
    by_cases h : k = c
    · subst h
      simp [setActivity, getActivity]
    · simp [setActivity, getActivity, h, ih]

lemma getActivity_setActivity_ne (la : List (String × ℚ)) (c c' : String) (t : ℚ)
    (h : c' ≠ c) :
    getActivity (setActivity la c t) c' = getActivity la c' := by
  induction la with
  | nil => simp [setActivity, getActivity, Ne.symm h]
  | cons kv rest ih =>
    obtain ⟨k, v⟩ := kv
    by_cases hk : k = c
    · subst hk
      simp [setActivity, getActivity, Ne.symm h]
    · by_cases hk' : k = c' <;> simp [setActivity, getActivity, hk, hk', h, ih]

lemma broadcastAux_delivered (sendOk : String → Bool) (now : ℚ) :
    ∀ (conns : List String) (la : List (String × ℚ)),
      (broadcastAux sendOk now conns la).2.1 = conns.takeWhile sendOk ∧
      ((broadcastAux sendOk now conns la).2.2 = none ↔
        ∀ c ∈ conns, sendOk c = true) := by
  intro conns
  induction conns with
  | nil => intro la; simp [broadcastAux, List.takeWhile]
  | cons c rest ih =>
    intro la
    by_cases hc : sendOk c
    · have h := ih (setActivity la c now)
      simp only [broadcastAux, hc, if_true, List.takeWhile_cons]
      constructor
      · rw [h.1]
      · rw [h.2]
        constructor
        · intro hall d hd
          rcases List.mem_cons.mp hd with rfl | hd
          · exact hc
          · exact hall d hd
        · intro hall d hd
          exact hall d (List.mem_cons_of_mem _ hd)
    · simp only [broadcastAux, Bool.not_eq_true] at hc
      simp [broadcastAux, hc, List.takeWhile_cons]

lemma broadcastAux_activity_preserved (sendOk : String → Bool) (now : ℚ) :
    ∀ (conns : List String) (la : List (String × ℚ)) (c : String),
      c ∉ (broadcastAux sendOk now conns la).2.1 →
      getActivity (broadcastAux sendOk now conns la).1 c = getActivity la c := by
  intro conns
  induction conns with
  | nil => intro la c _; rfl
  | cons d rest ih =>
    intro la c hc
    by_cases hd : sendOk d
    · simp only [broadcastAux, hd, if_true] at hc ⊢
      rw [List.mem_cons, not_or] at hc
      rw [ih (setActivity la d now) c hc.2]
      exact getActivity_setActivity_ne _ _ _ _ hc.1
    · simp only [broadcastAux, Bool.not_eq_true] at hd
      simp [broadcastAux, hd]

lemma broadcastAux_activity (sendOk : String → Bool) (now : ℚ) :
    ∀ (conns : List String) (la : List (String × ℚ)) (c : String),
      c ∈ (broadcastAux sendOk now conns la).2.1 →
      getActivity (broadcastAux sendOk now conns la).1 c = some now := by
  intro conns
  induction conns with
  | nil => intro la c hc; simp [broadcastAux] at hc
  | cons d rest ih =>
    intro la c hc
    by_cases hd : sendOk d
    · simp only [broadcastAux, hd, if_true] at hc ⊢
      by_cases hmem : c ∈ (broadcastAux sendOk now rest (setActivity la d now)).2.1
      · exact ih (setActivity la d now) c hmem
      · have hcd : c = d := by
          rcases List.mem_cons.mp hc with h | h
          · exact h
          · exact absurd h hmem
        subst hcd
        rw [broadcastAux_activity_preserved sendOk now rest (setActivity la c now) c hmem]
        exact getActivity_setActivity_self la c now
    · simp only [broadcastAux, Bool.not_eq_true] at hd
      simp [broadcastAux, hd] at hc

lemma lookupKey_setKey_self (p : Payload) (k : String) (v : JVal) :
    lookupKey (setKey p k v) k = some v := by
  induction p with
  | nil => simp [setKey, lookupKey]
  | cons kv rest ih =>
    obtain ⟨k', v'⟩ := kv
    by_cases h : k' = k
    · subst h
      simp [setKey, lookupKey]
    · simp [setKey, lookupKey, h, ih]

lemma lookupKey_setKey_ne (p : Payload) (k k' : String) (v : JVal) (h : k' ≠ k) :
    lookupKey (setKey p k v) k' = lookupKey p k' := by
  induction p with
  | nil => simp [setKey, lookupKey, Ne.symm h]
  | cons kv rest ih =>
    obtain ⟨a, b⟩ := kv
    by_cases ha : a = k
    · subst ha
      simp [setKey, lookupKey, Ne.symm h]
    · by_cases ha' : a = k' <;> simp [setKey, lookupKey, ha, ha', h, ih]

lemma nextPositions_length_le (positions : List ℚ) (y : ℚ)
    (h : positions.length ≤ max_positions) :
    (nextPositions positions y).length ≤ max_positions := by
  unfold nextPositions
  split
  · simp only [List.length_tail, List.length_append, List.length_singleton]
    omega
  · rename_i hlt
    simp only [List.length_append, List.length_singleton] at *
    omega

lemma nextPositions_not_short (positions : List ℚ) (y : ℚ)
    (h : 3 ≤ positions.length) :
    ¬ (nextPositions positions y).length < 3 := by
  unfold nextPositions
  split
  · simp only [List.length_tail, List.length_append, List.length_singleton]
    omega
  · simp only [List.length_append, List.length_singleton]
    omega

/-- Every call to `RepCounter.update` either leaves `rep_count` and
`last_rep_time` unchanged, or increments the count by one, stamps
`last_rep_time` with the call time, and that time exceeds the previous
`last_rep_time` by more than the `0.5` s debounce. -/
lemma update_count_cases (s : RepCounterState) (kps : List Keypoint) (now : ℚ) :
    ((s.update kps now).rep_count = s.rep_count ∧
     (s.update kps now).last_rep_time = s.last_rep_time) ∨
    ((s.update kps now).rep_count = s.rep_count + 1 ∧
     (s.update kps now).last_rep_time = now ∧
     1/2 < now - s.last_rep_time) := by
  unfold RepCounterState.update
  split
  · exact Or.inl ⟨rfl, rfl⟩
  · split
    · exact Or.inl ⟨rfl, rfl⟩
    · dsimp only
      split
      · exact Or.inl ⟨rfl, rfl⟩
      · split
        · rename_i h
          simp only [Bool.and_eq_true, decide_eq_true_eq] at h
          exact Or.inr ⟨rfl, rfl, h.1.2⟩
        · exact Or.inl ⟨rfl, rfl⟩

lemma update_positions_cases (s : RepCounterState) (kps : List Keypoint) (now : ℚ) :
    (s.update kps now).positions = s.positions ∨
    ∃ kp, kps.get? s.keypoint_idx = some kp ∧
      (s.update kps now).positions = nextPositions s.positions kp.getY := by
  unfold RepCounterState.update
  split
  · exact Or.inl rfl
  · rename_i kp hk
    split
    · exact Or.inl rfl
    · dsimp only
      split
      · exact Or.inr ⟨kp, hk, rfl⟩
      · split
        · exact Or.inr ⟨kp, hk, rfl⟩
        · exact Or.inr ⟨kp, hk, rfl⟩

lemma changedFlag_eq_true_iff (gu : Option Bool) (du : Bool) :
    changedFlag gu du = true ↔ (gu ≠ none ∧ gu ≠ some du) := by
  cases gu <;> simp [changedFlag, bne_iff_ne]

/-- Along any sequence of update calls, the recorded increment times are
pairwise separated by more than the debounce window, and each exceeds the
starting `last_rep_time` by more than the window. -/
lemma repTimes_pairwise_aux (inputs : List (List Keypoint × ℚ))
    (s : RepCounterState) :
    List.Pairwise (fun a b => 1/2 < b - a) (repTimes s inputs) ∧
    ∀ x ∈ repTimes s inputs, 1/2 < x - s.last_rep_time := by
  induction inputs generalizing s with
  | nil =>
    refine ⟨List.Pairwise.nil, ?_⟩
    intro x hx
    simp [repTimes] at hx
  | cons p rest ih =>
    obtain ⟨kps, t⟩ := p
    rcases update_count_cases s kps t with ⟨hc, hl⟩ | ⟨hc, hl, hgap⟩
    · have hnot : ¬ s.rep_count < (s.update kps t).rep_count := by omega
      simp only [repTimes]
      rw [if_neg hnot]
      have h := ih (s.update kps t)
      refine ⟨h.1, ?_⟩
      intro x hx
      have := h.2 x hx
      rw [hl] at this
      exact this
    · have hpos : s.rep_count < (s.update kps t).rep_count := by omega
      simp only [repTimes]
      rw [if_pos hpos]
      have h := ih (s.update kps t)
      constructor
      · refine List.pairwise_cons.mpr ⟨?_, h.1⟩
        intro x hx
        have := h.2 x hx
        rw [hl] at this
        exact this
      · intro x hx
        rcases List.mem_cons.mp hx with rfl | hx
        · exact hgap
        · have := h.2 x hx
          rw [hl] at this
          linarith

/-!
## Claim theorems
-/

/-- C3: whenever the tracked-keypoint index is absent from the keypoint
list, or the tracked keypoint's confidence is below `0.5`,
`RepCounter.update` leaves the whole state — position buffer, direction
flag, rep count and last-rep timestamp — exactly unchanged, so the
returned count is the current `rep_count`. -/
theorem update_noop_on_missing_or_low_confidence (s : RepCounterState)
    (kps : List Keypoint) (now : ℚ)
    (h : kps.get? s.keypoint_idx = none ∨
         ∃ kp, kps.get? s.keypoint_idx = some kp ∧ kp.getConfidence < 1/2) :
    s.update kps now = s := by
  unfold RepCounterState.update
  rcases h with h | ⟨kp, hk, hc⟩
  · rw [h]
  · rw [hk]
    simp only [if_pos hc]

/-- Witness for C3: an empty keypoint list (the tracked index 9 is
absent) is a strict no-op on a fresh counter. -/
theorem update_noop_on_missing_or_low_confidence_witness :
    RepCounterState.init.update [] 0 = RepCounterState.init :=
  update_noop_on_missing_or_low_confidence RepCounterState.init [] 0 (Or.inl rfl)

/-- C5: starting from any state whose buffer respects the fixed capacity
10, `RepCounter.update` keeps the buffer within capacity, changes it only
by the strict FIFO step `nextPositions` (append the new sample, evict the
oldest element when over capacity) or not at all, and never decreases
`rep_count`. -/
theorem update_capacity_fifo_monotone (s : RepCounterState)
    (kps : List Keypoint) (now : ℚ)
    (h : s.positions.length ≤ max_positions) :
    (s.update kps now).positions.length ≤ max_positions ∧
    s.rep_count ≤ (s.update kps now).rep_count ∧
    ((s.update kps now).positions = s.positions ∨
      ∃ kp, kps.get? s.keypoint_idx = some kp ∧
        (s.update kps now).positions = nextPositions s.positions kp.getY) := by
  refine ⟨?_, ?_, update_positions_cases s kps now⟩
  · rcases update_positions_cases s kps now with hp | ⟨kp, _, hp⟩
    · rw [hp]; exact h
    · rw [hp]; exact nextPositions_length_le s.positions kp.getY h
  · rcases update_count_cases s kps now with ⟨hc, _⟩ | ⟨hc, _, _⟩
    · rw [hc]
    · rw [hc]; exact Nat.le_succ _

/-- Witness for C5: a fresh counter (buffer of length 0) fed one
high-confidence sample keeps the capacity bound, keeps the count
monotone, and performs the FIFO buffer step. -/
theorem update_capacity_fifo_monotone_witness :
    oscCounter.positions.length ≤ max_positions ∧
    ((oscCounter.update (oscSample (1/2)) 0).positions.length ≤ max_positions ∧
     oscCounter.rep_count ≤ (oscCounter.update (oscSample (1/2)) 0).rep_count ∧
     ((oscCounter.update (oscSample (1/2)) 0).positions = oscCounter.positions ∨
       ∃ kp, (oscSample (1/2)).get? oscCounter.keypoint_idx = some kp ∧
         (oscCounter.update (oscSample (1/2)) 0).positions =
           nextPositions oscCounter.positions kp.getY)) :=
  ⟨by decide, update_capacity_fifo_monotone oscCounter (oscSample (1/2)) 0 (by decide)⟩

/-- C2: with at least 3 positions buffered and a fresh high-confidence
observation at the tracked index, `RepCounter.update` increments
`rep_count` (and stamps the rep time) exactly when all four conditions
hold — (a) a previous direction flag was established, (b) the newly
computed direction differs from it, (c) more than 0.5 s elapsed since the
previously counted rep, (d) the peak-to-trough amplitude over the buffered
window exceeds 0.15 — and if any condition fails, neither the count nor
the rep timestamp changes; the direction flag is set to the newly
computed direction either way. -/
theorem rep_increment_iff_conditions (s : RepCounterState)
    (kps : List Keypoint) (now : ℚ) (kp : Keypoint) (P : List ℚ) (du : Bool)
    (hget : kps.get? s.keypoint_idx = some kp)
    (hconf : ¬ kp.getConfidence < 1/2)
    (hlen : 3 ≤ s.positions.length)
    (hP : P = nextPositions s.positions kp.getY)
    (hdu : du = decide (kp.getY < avgPrev P)) :
    ((s.update kps now).rep_count = s.rep_count + 1 ↔
      (s.going_up ≠ none ∧ s.going_up ≠ some du ∧
       1/2 < now - s.last_rep_time ∧ 3/20 < |listMax P - listMin P|)) ∧
    (s.update kps now).going_up = some du ∧
    ((s.update kps now).rep_count = s.rep_count + 1 →
      (s.update kps now).last_rep_time = now) ∧
    (¬ (s.going_up ≠ none ∧ s.going_up ≠ some du ∧
        1/2 < now - s.last_rep_time ∧ 3/20 < |listMax P - listMin P|) →
      (s.update kps now).rep_count = s.rep_count ∧
      (s.update kps now).last_rep_time = s.last_rep_time) := by
  subst hP
  subst hdu
  unfold RepCounterState.update
  rw [hget]
  dsimp only
  rw [if_neg hconf, if_neg (nextPositions_not_short _ _ hlen)]
  split
  · rename_i hcond
    rw [Bool.and_eq_true, Bool.and_eq_true, changedFlag_eq_true_iff,
      decide_eq_true_eq, decide_eq_true_eq] at hcond
    obtain ⟨⟨⟨hA, hB⟩, hC⟩, hD⟩ := hcond
    exact ⟨iff_of_true rfl ⟨hA, hB, hC, hD⟩, rfl, fun _ => rfl,
      fun hn => absurd ⟨hA, hB, hC, hD⟩ hn⟩
  · rename_i hcond
    rw [Bool.and_eq_true, Bool.and_eq_true, changedFlag_eq_true_iff,
      decide_eq_true_eq, decide_eq_true_eq] at hcond
    have hne : ({ s with
        positions := nextPositions s.positions kp.getY,
        going_up := some (decide (kp.getY < avgPrev (nextPositions s.positions kp.getY))),
        rep_count := s.rep_count,
        last_rep_time := s.last_rep_time } : RepCounterState).rep_count ≠
        s.rep_count + 1 := by
      intro h
      simp only [] at h
      omega
    refine ⟨iff_of_false hne (by tauto), rfl, fun h => absurd h hne,
      fun _ => ⟨rfl, rfl⟩⟩

/-- Witness for C2: a counter with three buffered positions, direction
flag `going up`, fed a high-confidence sample that reverses the computed
direction 1 s after the last rep with amplitude `1/5 > 3/20`: the update
sets the direction flag to the newly computed direction. -/
theorem rep_increment_iff_conditions_witness :
    (RepCounterState.update
        { keypoint_idx := 0, positions := [1/2, 2/5, 3/10], going_up := some true,
          rep_count := 0, last_rep_time := 0 }
        [⟨some (1/2), some 1⟩] 1).going_up = some false := by
  have hnot : ¬ ((⟨some (1/2), some 1⟩ : Keypoint).getY <
      avgPrev (nextPositions [1/2, 2/5, 3/10]
        (⟨some (1/2), some 1⟩ : Keypoint).getY)) := by
    norm_num [Keypoint.getY, avgPrev, nextPositions, max_positions]
  have h := rep_increment_iff_conditions
    { keypoint_idx := 0, positions := [1/2, 2/5, 3/10], going_up := some true,
      rep_count := 0, last_rep_time := 0 }
    [⟨some (1/2), some 1⟩] 1 ⟨some (1/2), some 1⟩
    (nextPositions [1/2, 2/5, 3/10] (⟨some (1/2), some 1⟩ : Keypoint).getY)
    false rfl (by norm_num [Keypoint.getConfidence]) (by norm_num) rfl
    (decide_eq_false hnot).symm
  exact h.2.1

/-- C4: across any sequence of `RepCounter.update` calls with any time
inputs, the times at which `rep_count` increments are pairwise more than
0.5 s apart — two direction reversals less than 0.5 s apart can never
both be counted. -/
theorem rep_times_debounced (s : RepCounterState)
    (inputs : List (List Keypoint × ℚ)) :
    List.Pairwise (fun a b => 1/2 < b - a) (repTimes s inputs) :=
  (repTimes_pairwise_aux inputs s).1

set_option maxHeartbeats 4000000 in
/-- C1 counterexample: feeding the synthetic oscillation `oscInputs17` —
peak-to-trough amplitude `3/10 ≥ 0.3`, period 2 s `> 1` s, confidence 1
everywhere — for exactly two full oscillations yields `rep_count = 3`,
not the 2 the claim's one-rep-per-oscillation rate predicts: both
direction reversals of each oscillation pass the 0.5 s debounce. -/
theorem osc_two_oscillations_three_reps :
    (runUpdates oscCounter oscInputs17).rep_count = 3 ∧
    (runUpdates oscCounter oscInputs17).rep_count ≠ 2 := by
  have h : (runUpdates oscCounter oscInputs17).rep_count = 3 := by
    norm_num [oscInputs17, oscSample, oscCounter, runUpdates,
      RepCounterState.update, changedFlag, nextPositions, listMax, listMin,
      avgPrev, Keypoint.getY, Keypoint.getConfidence, max_positions, max_def,
      min_def, abs_of_nonneg, abs_of_nonpos]
  refine ⟨h, ?_⟩
  rw [h]
  omega

set_option maxHeartbeats 4000000 in
/-- C1 amended: on the synthetic oscillation (amplitude 0.3, period 2 s
> 1 s, confidence ≥ 0.5 throughout), `RepCounter.update` counts one rep
per direction reversal, i.e. two reps per full oscillation: after `k`
full oscillations the count is `2 * k - 1` (detection lag loses one
reversal at the start), as witnessed for `k = 2` and `k = 3`. -/
theorem osc_two_reps_per_oscillation :
    (runUpdates oscCounter oscInputs17).rep_count = 2 * 2 - 1 ∧
    (runUpdates oscCounter oscInputs25).rep_count = 2 * 3 - 1 := by
  constructor <;>
    norm_num [oscInputs17, oscInputs25, oscSample, oscCounter, runUpdates,
      RepCounterState.update, changedFlag, nextPositions, listMax, listMin,
      avgPrev, Keypoint.getY, Keypoint.getConfidence, max_positions, max_def,
      min_def, abs_of_nonneg, abs_of_nonpos]

/-- C6: the inference call wrapper converts every failure into a typed
`{"error": ...}` payload instead of raising: a non-2xx response yields an
error carrying the status code, a timeout yields the distinct timeout
error (provably different from the other two error messages), and any
other transport failure yields a generic error carrying the underlying
message. Totality of `call_inference_service` over all outcomes models
the source's catch-all `try`/`except`: no outcome propagates a fault. -/
theorem inference_failures_are_typed_results (status : ℕ) (body : Payload)
    (msg : String) :
    (¬ (200 ≤ status ∧ status < 300) →
      call_inference_service (HttpOutcome.response status body) =
        [("error", JVal.str ("Inference service error: " ++ toString status))]) ∧
    call_inference_service HttpOutcome.timeout =
      [("error", JVal.str "Inference service timeout")] ∧
    call_inference_service (HttpOutcome.failure msg) =
      [("error", JVal.str ("Error calling inference service: " ++ msg))] ∧
    "Inference service timeout" ≠ "Inference service error: " ++ toString status ∧
    "Inference service timeout" ≠ "Error calling inference service: " ++ msg := by
  refine ⟨?_, rfl, rfl, timeout_msg_ne_status_msg _, timeout_msg_ne_failure_msg _⟩
  intro h
  have h200 : status ≠ 200 := by omega
  simp [call_inference_service, h200]

/-- Witness for C6: a 500 response becomes the structured error payload
carrying the status code. -/
theorem inference_failures_are_typed_results_witness :
    ¬ (200 ≤ 500 ∧ 500 < 300) ∧
    call_inference_service (HttpOutcome.response 500 []) =
      [("error", JVal.str ("Inference service error: " ++ toString 500))] :=
  ⟨by omega,
   (inference_failures_are_typed_results 500 [] "x").1 (by omega)⟩

/-- C7 counterexample: with `"alice"` and `"bob"` registered and
`"alice"`'s connection stale, `broadcast` delivers to nobody: the
unhandled exception on the first send aborts delivery to `"bob"`, which
is still registered and whose own send would have succeeded. -/
theorem broadcast_abort_counterexample :
    "bob" ∈ bcState.active_connections ∧
    bcSendOk "bob" = true ∧
    (broadcast bcState bcSendOk 1).2.1 = [] ∧
    "bob" ∉ (broadcast bcState bcSendOk 1).2.1 := by
  refine ⟨by decide, by decide, ?_, ?_⟩ <;>
    simp [broadcast, broadcastAux, bcState, bcSendOk]

/-- C7 amended: `broadcast` delivers the message to the registered
connections in registry order only up to (and excluding) the first
connection whose send fails; in particular, when every send succeeds it
delivers to every currently registered connection and no error escapes. -/
theorem broadcast_delivers_until_first_failure (s : ConnectionManagerState)
    (sendOk : String → Bool) (now : ℚ) :
    (broadcast s sendOk now).2.1 = s.active_connections.takeWhile sendOk ∧
    ((∀ c ∈ s.active_connections, sendOk c = true) →
      (broadcast s sendOk now).2.1 = s.active_connections ∧
      (broadcast s sendOk now).2.2 = none) := by
  have h := broadcastAux_delivered sendOk now s.active_connections s.last_activity
  constructor
  · simp only [broadcast]
    exact h.1
  · intro hall
    constructor
    · simp only [broadcast]
      rw [h.1]
      exact List.takeWhile_eq_self_iff.mpr hall
    · simp only [broadcast]
      exact h.2.mpr hall

/-- Witness for C7: when no send fails, both registered clients receive
the broadcast and no send aborts. -/
theorem broadcast_delivers_until_first_failure_witness :
    (∀ c ∈ bcState.active_connections, (fun _ : String => true) c = true) ∧
    (broadcast bcState (fun _ => true) 1).2.1 = bcState.active_connections ∧
    (broadcast bcState (fun _ => true) 1).2.2 = none := by
  have h := (broadcast_delivers_until_first_failure bcState (fun _ => true) 1).2
    (by intro c _; rfl)
  exact ⟨by intro c _; rfl, h.1, h.2⟩

/-- C8 counterexample: a heartbeat marker sent at time 5 to the
registered client `"alice"` leaves the registry — in particular
`"alice"`'s last-activity timestamp, still 0 — entirely unchanged: the
source's heartbeat loop never writes `last_activity`. -/
theorem heartbeat_activity_counterexample :
    (heartbeatTick hbState "alice" 5).2 = true ∧
    getActivity (heartbeatTick hbState "alice" 5).1.last_activity "alice" = some 0 ∧
    getActivity (heartbeatTick hbState "alice" 5).1.last_activity "alice" ≠ some 5 := by
  refine ⟨?_, ?_, ?_⟩
  · simp [heartbeatTick, hbState]
  · simp [heartbeatTick, hbState, getActivity]
  · simp only [heartbeatTick, hbState]
    norm_num [getActivity]

/-- C8 amended: a direct `send_message` to a registered client and every
delivered `broadcast` send stamp that client's last-activity with the
send time, but a heartbeat marker send leaves the registry state (and so
last-activity) unchanged. -/
theorem send_updates_activity_heartbeat_does_not (s : ConnectionManagerState)
    (client c : String) (sendOk : String → Bool) (now : ℚ) :
    (client ∈ s.active_connections →
      getActivity (send_message s client now).last_activity client = some now) ∧
    (c ∈ (broadcast s sendOk now).2.1 →
      getActivity ((broadcast s sendOk now).1).last_activity c = some now) ∧
    (heartbeatTick s client now).1 = s := by
  refine ⟨fun hm => ?_, fun hm => ?_, ?_⟩
  · simp only [send_message, if_pos hm]
    exact getActivity_setActivity_self s.last_activity client now
  · simp only [broadcast] at hm ⊢
    exact broadcastAux_activity sendOk now s.active_connections s.last_activity c hm
  · unfold heartbeatTick
    split <;> rfl

/-- Witness for C8: a direct send at time 5 to the registered client
`"alice"` stamps its last-activity with 5. -/
theorem send_updates_activity_heartbeat_does_not_witness :
    "alice" ∈ hbState.active_connections ∧
    getActivity (send_message hbState "alice" 5).last_activity "alice" = some 5 :=
  ⟨by decide,
   (send_updates_activity_heartbeat_does_not hbState "alice" "alice"
     (fun _ => true) 5).1 (by decide)⟩

/-- C9 counterexample: a successful inference result (no `"error"` key)
that carries no `"keypoints"` entry is sent back entirely unmodified: no
`rep_count` integer and no `form_quality` string are added, contradicting
the claim that every successful frame reply is augmented with both. -/
theorem frame_without_keypoints_not_enriched :
    lookupKey bareResults "error" = none ∧
    (processFrame RepCounterState.init "squat" bareResults 0).1 = bareResults ∧
    lookupKey (processFrame RepCounterState.init "squat" bareResults 0).1
      "rep_count" = none ∧
    lookupKey (processFrame RepCounterState.init "squat" bareResults 0).1
      "form_quality" = none := by
  refine ⟨?_, ?_, ?_, ?_⟩ <;> simp [processFrame, bareResults, lookupKey]

/-- C9 amended: for a successful inference result that carries a
`"keypoints"` entry, the reply is the original payload with `rep_count`
set to the updated counter's value (the counter state advances by exactly
that update); `form_quality` is additionally set — to the form analyzer's
label — exactly when the keypoint list is non-empty, and every other key
of the payload is preserved. -/
theorem frame_success_enrichment (rc : RepCounterState) (et : String)
    (results : Payload) (now : ℚ) (kps : List Keypoint)
    (herr : lookupKey results "error" = none)
    (hkp : lookupKey results "keypoints" = some (JVal.kps kps)) :
    (processFrame rc et results now).2 = rc.update kps now ∧
    lookupKey (processFrame rc et results now).1 "rep_count" =
      some (JVal.int ((rc.update kps now).rep_count : ℤ)) ∧
    (kps ≠ [] → lookupKey (processFrame rc et results now).1 "form_quality" =
      some (JVal.str (analyze_form kps et))) ∧
    (kps = [] → lookupKey (processFrame rc et results now).1 "form_quality" =
      lookupKey results "form_quality") ∧
    (∀ k, k ≠ "rep_count" → k ≠ "form_quality" →
      lookupKey (processFrame rc et results now).1 k = lookupKey results k) := by
  unfold processFrame
  rw [herr, hkp]
  simp only [Option.isSome_none, Bool.false_eq_true, if_false]
  by_cases hk : kps.isEmpty
  · have hkeq : kps = [] := List.isEmpty_iff.mp hk
    rw [if_pos hk]
    refine ⟨rfl, lookupKey_setKey_self _ _ _, fun hne => absurd hkeq hne,
      fun _ => ?_, fun k hk1 hk2 => ?_⟩
    · exact lookupKey_setKey_ne _ _ _ _ (by decide)
    · exact lookupKey_setKey_ne _ _ _ _ hk1
  · have hkeq : kps ≠ [] := fun he => hk (by rw [he]; rfl)
    rw [if_neg hk]
    refine ⟨rfl, ?_, fun _ => lookupKey_setKey_self _ _ _,
      fun he => absurd he hkeq, fun k hk1 hk2 => ?_⟩
    · rw [lookupKey_setKey_ne _ _ _ _ (by decide)]
      exact lookupKey_setKey_self _ _ _
    · rw [lookupKey_setKey_ne _ _ _ _ hk2]
      exact lookupKey_setKey_ne _ _ _ _ hk1

/-- Witness for C9: a successful result carrying ten high-confidence
keypoints is answered with a `rep_count` entry holding the updated
counter's value. -/
theorem frame_success_enrichment_witness :
    lookupKey frameResults "error" = none ∧
    lookupKey (processFrame RepCounterState.init "squat" frameResults 0).1
      "rep_count" =
      some (JVal.int ((RepCounterState.init.update kp10 0).rep_count : ℤ)) :=
  ⟨rfl,
   (frame_success_enrichment RepCounterState.init "squat" frameResults 0 kp10
     rfl rfl).2.1⟩

/-- C10 counterexample: with debug off and a wildcard allow-set, a
*present but empty* `Origin` header is rejected — Python's truthiness
check `if origin and ...` treats the empty string as absent — although
the claim requires approval for every present origin once the allow-set
contains `"*"`. -/
theorem cors_empty_origin_counterexample :
    cors_validation false (some "") ["*"] = false ∧
    (some "" : Option String).isSome = true ∧
    "*" ∈ ["*"] := by
  refine ⟨?_, rfl, by decide⟩
  simp [cors_validation]

/-- C10 amended: the origin gate approves everything when debug mode is
on; with debug off it approves exactly the connection attempts that
present a non-empty origin that is in the configured allow-set or whose
allow-set contains the wildcard `"*"`; an absent — or empty — origin
header is rejected. -/
theorem cors_gate_decision (origin : Option String) (allowed : List String) :
    cors_validation true origin allowed = true ∧
    (cors_validation false origin allowed = true ↔
      ∃ o, origin = some o ∧ o ≠ "" ∧ (o ∈ allowed ∨ "*" ∈ allowed)) := by
  refine ⟨rfl, ?_⟩
  cases origin with
  | none => simp [cors_validation]
  | some o =>
    simp [cors_validation, Bool.and_eq_true, Bool.or_eq_true, bne_iff_ne,
      List.contains, List.elem_iff]

end Morphos
